import Mathlib

/-!
Verification of `vcd-converter` (`src/vcd_writer.cpp`): a shallow embedding of
the VCD writer engine — value encoders, scope tree emission, registration and
change lifecycle — together with theorems about its behaviour.

Machine strings are modelled as `List Char` (byte strings), sizes and
timestamps as `Nat` (the C++ `unsigned`/`size_t` arithmetic that matters is
made explicit with `% 2^64`), and C++ exceptions as `Except`.
-/

namespace Vcd

/-- The size_t modulus: `std::string::size` arithmetic is 64-bit unsigned. -/
def sizeTMod : Nat := 2 ^ 64

/-- The two exception kinds of the writer (`VCDTypeException`,
`VCDPhaseException`), with their `format(...)`ted messages. -/
inductive VCDErr where
  | typeExc (msg : String)
  | phaseExc (msg : String)
deriving DecidableEq, Repr

/-- `VCDValues::ONE`. Modelled from the spec: the `VCDValues` character
constants are declared in `vcd_writer.h`, which is not part of the sources;
the spec fixes the four state characters as `{0,1,x,z}`. -/
def VCDValues.ONE : Char := '1'

/-- `VCDValues::ZERO`. Modelled from the spec (see `VCDValues.ONE`). -/
def VCDValues.ZERO : Char := '0'

/-- `VCDValues.UNDEF`, the unknown state. Modelled from the spec
(see `VCDValues.ONE`). -/
def VCDValues.UNDEF : Char := 'x'

/-- `VCDValues.HIGHV`, the high-impedance state. Modelled from the spec
(see `VCDValues.ONE`). -/
def VCDValues.HIGHV : Char := 'z'

/-- C `tolower` in the default locale on byte strings: lower-cases only
`'A'..'Z'`. -/
def asciiToLower (c : Char) : Char :=
  if 'A' ≤ c ∧ c ≤ 'Z' then Char.ofNat (c.toNat + 32) else c

/-- `VCDScalarVariable::change_record` (vcd_writer.cpp:157-164).
`c` is the lower-cased first character, or `UNDEF` when the value is empty;
the guard then rejects any value whose size differs from 1 — including the
empty value, despite the class comment saying an empty value means `UNDEF`. -/
def scalarChangeRecord (value : List Char) : Except VCDErr (List Char) :=
  let c : Char := match value with
    | [] => VCDValues.UNDEF
    | v :: _ => asciiToLower v
  if value.length ≠ 1 ∨ (c ≠ VCDValues.ONE ∧ c ≠ VCDValues.ZERO
      ∧ c ≠ VCDValues.UNDEF ∧ c ≠ VCDValues.HIGHV) then
    Except.error (VCDErr.typeExc ("Invalid scalar value '" ++ String.singleton c ++ "'"))
  else
    Except.ok [c]

/-- `VCDStringVariable::change_record` (vcd_writer.cpp:175-180). -/
def stringChangeRecord (value : List Char) : Except VCDErr (List Char) :=
  if (' ') ∈ value then
    Except.error (VCDErr.typeExc ("Invalid string value '" ++ String.mk value ++ "'"))
  else
    Except.ok ('s' :: value ++ [' '])

/-- The validation/lower-casing loop of `VCDVectorVariable::change_record`
(vcd_writer.cpp:546-560): `for (i = 1; i < val_sz - 1; ++i)` over the buffer
`val = 'b' + value + ' '`.  Positions are visited in order; each is
lower-cased in place and must be one of the four state characters.
`fuel` bounds the iteration count by the buffer length; this is exact because
the C++ loop never reads past the buffer: for `val_sz = 0` the (wrapped-
around) bound is huge but iteration 1 reads the `' '` and throws, and for
`val_sz ≥ 1` the bound `val_sz - 1` stays inside the buffer. -/
def vecScanGo (size : Nat) : Nat → List Char → Nat → Nat → Except VCDErr (List Char)
  | 0, val, _, _ => Except.ok val
  | fuel + 1, val, i, bound =>
    if i < bound then
      if i < val.length then
        let c := asciiToLower (val.getD i ' ')
        let val' := val.set i c
        if c = VCDValues.ONE ∨ c = VCDValues.ZERO
            ∨ c = VCDValues.UNDEF ∨ c = VCDValues.HIGHV then
          vecScanGo size fuel val' (i + 1) bound
        else
          Except.error (VCDErr.typeExc ("Invalid binary vector value '"
            ++ String.mk val' ++ "' size '" ++ toString size ++ "'"))
      else Except.ok val
    else Except.ok val

/-- The right-alignment shift loop of `VCDVectorVariable::change_record`
(vcd_writer.cpp:587-588): `for (i = val_sz; i >= 1; --i) val[k+i] = val[i]`. -/
def shiftLoop (k : Nat) : List Char → Nat → List Char
  | val, 0 => val
  | val, i + 1 => shiftLoop k (val.set (k + i + 1) (val.getD (i + 1) ' ')) i

/-- The zero-fill loop of `VCDVectorVariable::change_record`
(vcd_writer.cpp:590-591): `for (i = 1; i <= k; ++i) val[i] = ZERO`,
written with the remaining iteration count as the recursion argument. -/
def zeroLoop : List Char → Nat → Nat → List Char
  | val, _, 0 => val
  | val, i, c + 1 => zeroLoop (val.set i VCDValues.ZERO) (i + 1) c

/-- `VCDVectorVariable::change_record` (vcd_writer.cpp:537-596).
Oversized values are rejected; the scan loop validates/lower-cases the buffer
positions `1 .. val_sz - 2` (size_t arithmetic: for an empty value the bound
`val_sz - 1` wraps around and the scan reads the trailing `' '`, throwing);
then the empty value is replaced by all-`UNDEF`, and a shorter value is
right-aligned: `resize(size+2)` (appending NULs), the shift loop, the
zero-fill loop, and the final `val[size+1] = ' '`. -/
def vectorChangeRecord (size : Nat) (value : List Char) : Except VCDErr (List Char) :=
  if value.length > size then
    Except.error (VCDErr.typeExc ("Invalid binary vector value '"
      ++ String.mk value ++ "' size '" ++ toString size ++ "'"))
  else
    (vecScanGo size ('b' :: value ++ [' ']).length ('b' :: value ++ [' ']) 1
        ((value.length + sizeTMod - 1) % sizeTMod)).bind fun val1 =>
      if value.length = 0 then
        Except.ok ('b' :: List.replicate size VCDValues.UNDEF ++ [' '])
      else if value.length < size then
        Except.ok ((zeroLoop (shiftLoop (size - value.length)
          (val1 ++ List.replicate (size + 2 - val1.length) (Char.ofNat 0))
          value.length) 1 (size - value.length)).set (size + 1) ' ')
      else Except.ok val1

/-- The 19 VCD variable types, in the order of `VCDVariable::VAR_TYPES`
(vcd_writer.cpp:128-131). -/
inductive VariableType where
  | wire | reg | string | parameter | integer | real | realtime | time | event
  | supply0 | supply1 | tri | triand | trior | trireg | tri0 | tri1 | wand | wor
deriving DecidableEq, Repr

/-- `VCDVariable::VAR_TYPES[int(type)]`. -/
def varTypeName : VariableType → String
  | .wire => "wire" | .reg => "reg" | .string => "string" | .parameter => "parameter"
  | .integer => "integer" | .real => "real" | .realtime => "realtime" | .time => "time"
  | .event => "event" | .supply0 => "supply0" | .supply1 => "supply1" | .tri => "tri"
  | .triand => "triand" | .trior => "trior" | .trireg => "trireg" | .tri0 => "tri0"
  | .tri1 => "tri1" | .wand => "wand" | .wor => "wor"

/-- The five scope types, in the order of the `SCOPE_TYPES` array in
`VCDWriter::_scope_declaration` (vcd_writer.cpp:419). -/
inductive ScopeType where
  | begin | fork | function | module | task
deriving DecidableEq, Repr

/-- `SCOPE_TYPES[int(type)]`. -/
def scopeTypeName : ScopeType → String
  | .begin => "begin" | .fork => "fork" | .function => "function"
  | .module => "module" | .task => "task"

/-- Which `change_record` implementation a variable got at registration — the
concrete `VCDVariable` subclass chosen by `VCDWriter::register_var`. -/
inductive VarKind where
  | scalar | vector | real | str
deriving DecidableEq, Repr

/-- A registered variable (`VCDVariable`, vcd_writer.cpp:89-125): internal
id, semantic type, name, bit size and the owning scope's name (the
`_scope` back-reference is used only through `scope->name`, cf.
`VarPtrHash`/`VarPtrEqual`). -/
structure VCDVar where
  ident : Nat
  type : VariableType
  name : String
  size : Nat
  scopeName : String
  kind : VarKind
deriving DecidableEq, Repr

/-- Dispatch of `change_record` on the subclass built at registration.
`VCDRealVariable::change_record` formats `stod(value)` with `"r%.16g "` —
floating point, outside the embedding — so the real encoder is a parameter
of every engine function. -/
def changeRecord (realEnc : List Char → Except VCDErr (List Char))
    (v : VCDVar) (value : List Char) : Except VCDErr (List Char) :=
  match v.kind with
  | .scalar => scalarChangeRecord value
  | .vector => vectorChangeRecord v.size value
  | .real => realEnc value
  | .str => stringChangeRecord value

/-- A scope (`VCDScope`, vcd_writer.cpp:71-79): full dotted name, type, and
the owned variables in registration order. -/
structure ScopeE where
  name : String
  type : ScopeType
  svars : List VCDVar
deriving DecidableEq, Repr

/-- The writer engine state (the data members of `VCDWriter`).  `scopes`
mirrors the `std::set` ordered by name (`ScopePtrHash`); `varsPrevs` mirrors
the `_vars_prevs` map from variable to last tracked encoding, keyed by
(scope name, variable name) per `VarPtrEqual`, in insertion order; `output`
is the ordered list of lines printed to `_ofile`; `kwLines` holds the
already-formatted `$timescale`/`$date`/`$comment`/`$version` lines (their
formatting — date validation, newline replacement — is external, spec §1);
`finalizeCount` is a ghost counter of `_finalize_registration` runs. -/
structure WriterState where
  timestamp : Nat
  dumping : Bool
  registering : Bool
  closed : Bool
  scopes : List ScopeE
  vars : List VCDVar
  varsPrevs : List (VCDVar × List Char)
  nextVarId : Nat
  output : List String
  scopeSep : String
  scopeDefType : ScopeType
  kwLines : List String
  finalizeCount : Nat
deriving DecidableEq, Repr

/-- `VCDWriter::VCDWriter` (vcd_writer.cpp:217-231): initial state. -/
def initState (initTs : Nat) (kwLines : List String) : WriterState :=
  { timestamp := initTs, dumping := true, registering := true, closed := false,
    scopes := [], vars := [], varsPrevs := [], nextVarId := 0, output := [],
    scopeSep := ".", scopeDefType := ScopeType.module, kwLines := kwLines,
    finalizeCount := 0 }

/-- `_scopes.find` by name (the set is ordered and keyed by `name`). -/
def lookupScope : List ScopeE → String → Option ScopeE
  | [], _ => none
  | sc :: rest, nm => if sc.name = nm then some sc else lookupScope rest nm

/-- `std::string::operator<`: lexicographic comparison of the character
sequences. -/
def strLtB : List Char → List Char → Bool
  | [], [] => false
  | [], _ :: _ => true
  | _ :: _, [] => false
  | a :: as, b :: bs =>
    if a.toNat < b.toNat then true
    else if b.toNat < a.toNat then false
    else strLtB as bs

/-- Sorted insertion into the scope set (comparator `ScopePtrHash`:
`l->name < r->name`); only called for a name not present. -/
def insertScopeSorted (sc : ScopeE) : List ScopeE → List ScopeE
  | [] => [sc]
  | s :: rest =>
    if strLtB sc.name.data s.name.data then sc :: s :: rest
    else s :: insertScopeSorted sc rest

/-- The find-or-insert step of `register_var` (vcd_writer.cpp:246-254). -/
def ensureScope (scopes : List ScopeE) (nm : String) (defType : ScopeType) : List ScopeE :=
  match lookupScope scopes nm with
  | some _ => scopes
  | none => insertScopeSorted ⟨nm, defType, []⟩ scopes

/-- `(**cur_scope).vars.push_back(pvar)` (vcd_writer.cpp:300). -/
def pushVarToScope : List ScopeE → String → VCDVar → List ScopeE
  | [], _, _ => []
  | sc :: rest, nm, v =>
    if sc.name = nm then { sc with svars := sc.svars ++ [v] } :: rest
    else sc :: pushVarToScope rest nm v

/-- `_vars.find` with the `VarPtrEqual` key (variable name, scope name). -/
def findVar : List VCDVar → String → String → Option VCDVar
  | [], _, _ => none
  | v :: rest, scope, nm =>
    if v.name = nm ∧ v.scopeName = scope then some v else findVar rest scope nm

/-- `_vars.insert(pvar)`: a no-op when an equal key is already present
(`std::unordered_set` semantics). -/
def insertVarSet (vars : List VCDVar) (v : VCDVar) : List VCDVar :=
  match findVar vars v.scopeName v.name with
  | some _ => vars
  | none => vars ++ [v]

/-- `_vars_prevs.find` with the `VarPtrEqual` key. -/
def lookupTracker : List (VCDVar × List Char) → String → String → Option (List Char)
  | [], _, _ => none
  | (v, enc) :: rest, scope, nm =>
    if v.name = nm ∧ v.scopeName = scope then some enc else lookupTracker rest scope nm

/-- `it->second = change_value` on the entry found by key (the stored key —
in particular its `ident` — is left as it was inserted). -/
def setTracker : List (VCDVar × List Char) → String → String → List Char →
    List (VCDVar × List Char)
  | [], _, _, _ => []
  | (v, enc) :: rest, scope, nm, newEnc =>
    if v.name = nm ∧ v.scopeName = scope then (v, newEnc) :: rest
    else (v, enc) :: setTracker rest scope nm newEnc

/-- `fmt` `{:x}` — lower-case hexadecimal of the variable id. -/
def hexStr (n : Nat) : String := String.mk (Nat.toDigits 16 n)

/-- A `#<timestamp>` line (`{:d}` — decimal). -/
def timeMarker (ts : Nat) : String := "#" ++ toString ts

/-- `VCDVariable::declartion` (vcd_writer.cpp:529-532):
`$var <type> <size> <id:hex> <name> $end`. -/
def declLine (v : VCDVar) : String :=
  "$var " ++ varTypeName v.type ++ " " ++ toString v.size ++ " " ++ hexStr v.ident
    ++ " " ++ v.name ++ " $end"

/-- `strncmp(a.c_str(), b.c_str(), n) == 0`: the terminating NUL of the
shorter string stops the comparison, so on NUL-free strings this is equality
of the length-`n` prefixes. -/
def strncmpEq (a b : List Char) (n : Nat) : Bool := a.take n == b.take n

/-- Helper for `std::string::find`: first index `≥ i` at which `pat` occurs. -/
def strFindAux (pat : List Char) : List Char → Nat → Option Nat
  | [], i => if pat = [] then some i else none
  | c :: rest, i => if pat.isPrefixOf (c :: rest) then some i else strFindAux pat rest (i + 1)

/-- `s.find(pat, start)`; `none` plays the role of `npos`. -/
def strFind (s pat : List Char) (start : Nat) : Option Nat :=
  strFindAux pat (s.drop start) start

/-- The "equal prefix" loop of `_write_header` (vcd_writer.cpp:452-458):
starting from `n_prev = 0` and `n` = first separator (or the whole length),
while the first `n` characters agree, advance `n_prev` past the separator
and find the next one; returns the final `n_prev`.  `fuel` bounds the
iterations: each found separator position strictly grows, so
`prev.length + 1` steps always suffice. -/
def equalPrefixLoop : Nat → List Char → List Char → List Char → Nat → Nat → Nat
  | 0, _, _, _, nPrev, _ => nPrev
  | fuel + 1, cur, prev, sep, nPrev, n =>
    if strncmpEq cur prev n then
      match strFind prev sep (n + sep.length) with
      | none => n + sep.length
      | some n' => equalPrefixLoop fuel cur prev sep (n + sep.length) n'
    else nPrev

/-- Number of separator occurrences found by repeated
`find(sep, n + sep.length)` from `start` — one `$upscope` each
(vcd_writer.cpp:463-468 and 494-499). -/
def countSepFrom : Nat → List Char → List Char → Nat → Nat
  | 0, _, _, _ => 0
  | fuel + 1, s, sep, start =>
    match strFind s sep start with
    | none => 0
    | some n => countSepFrom fuel s sep (n + sep.length) + 1

/-- `VCDWriter::_scope_declaration` (vcd_writer.cpp:417-424):
`$scope <type> <scope.substr(sub_beg, sub_end - sub_beg)> $end`; `none`
stands for the default `sub_end = npos` (to the end). -/
def scopeDeclLine (scope : List Char) (ty : ScopeType) (subBeg : Nat)
    (subEnd : Option Nat) : String :=
  let nm := match subEnd with
    | none => scope.drop subBeg
    | some n => (scope.drop subBeg).take (n - subBeg)
  "$scope " ++ scopeTypeName ty ++ " " ++ String.mk nm ++ " $end"

/-- The "scope print close" block of `_write_header` (vcd_writer.cpp:446-469)
for one loop iteration: emitted `$upscope` lines and the final `n_prev`
at which opening resumes.  When `scope_prev` is empty the block is skipped
and `n_prev` still holds its initial value 0. -/
def closeLines (sep prev cur : List Char) : List String × Nat :=
  if prev.length = 0 then ([], 0)
  else
    let n0 := (strFind prev sep 0).getD prev.length
    let np := equalPrefixLoop (prev.length + 1) cur prev sep 0 n0
    let lastL : List String :=
      if np ≠ prev.length + sep.length then ["$upscope $end"] else []
    (lastL ++ List.replicate (countSepFrom (prev.length + 1) prev sep np) "$upscope $end", np)

/-- The "scope print open" loop of `_write_header` (vcd_writer.cpp:471-480):
one `$scope` line per separator found from `n_prev`, then the final segment.
`fuel` bounds the iterations (positions strictly grow for a nonempty
separator; with an empty separator the C++ loop would not terminate
either). -/
def openLinesGo : Nat → List Char → List Char → ScopeType → Nat → List String
  | 0, scope, _, ty, nPrev => [scopeDeclLine scope ty nPrev none]
  | fuel + 1, scope, sep, ty, nPrev =>
    match strFind scope sep nPrev with
    | none => [scopeDeclLine scope ty nPrev none]
    | some n => scopeDeclLine scope ty nPrev (some n)
        :: openLinesGo fuel scope sep ty (n + sep.length)

/-- The scope loop of `_write_header` (vcd_writer.cpp:440-500): close lines
for the previous scope, open lines and variable declarations for the current
one; after the last scope, one `$upscope` plus one per separator of the last
name. -/
def emitScopesGo (sep : List Char) : List ScopeE → List Char → List String
  | [], prev =>
    if prev.length = 0 then []
    else "$upscope $end"
      :: List.replicate (countSepFrom (prev.length + 1) prev sep 0) "$upscope $end"
  | sc :: rest, prev =>
    (closeLines sep prev sc.name.data).1
      ++ openLinesGo (sc.name.data.length + 1) sc.name.data sep sc.type
          (closeLines sep prev sc.name.data).2
      ++ sc.svars.map declLine
      ++ emitScopesGo sep rest sc.name.data

/-- The nested scope/variable declaration block emitted by `_write_header`
from the sorted scope set. -/
def emitScopes (sep : String) (scopes : List ScopeE) : List String :=
  emitScopesGo sep.data scopes []

/-- `VCDWriter::_write_header` (vcd_writer.cpp:427-505): keyword metadata
lines, nested scope block, `$enddefinitions`.  (The `_header.reset` and the
keyword formatting itself are outside the state modelled here.) -/
def writeHeaderS (s : WriterState) : WriterState :=
  { s with output := s.output ++ s.kwLines ++ emitScopes s.scopeSep s.scopes
      ++ ["$enddefinitions $end"] }

/-- `VCDWriter::_dump_values` (vcd_writer.cpp:401-414): the keyword line;
then, only if dumping, each tracked value with its id and a `$end`. -/
def dumpValuesS (keyword : String) (s : WriterState) : WriterState :=
  if !s.dumping then { s with output := s.output ++ [keyword] }
  else { s with output := s.output ++ [keyword]
      ++ s.varsPrevs.map (fun p => String.mk p.2 ++ hexStr p.1.ident) ++ ["$end"] }

/-- One entry of the `_dump_off` loop (vcd_writer.cpp:383-396): reals are
skipped, vectors rewritten as `bx <id>`, everything else as `x<id>`. -/
def dumpOffLine (p : VCDVar × List Char) : List String :=
  match p.2 with
  | 'r' :: _ => []
  | 'b' :: _ => ["bx " ++ hexStr p.1.ident]
  | _ => ["x" ++ hexStr p.1.ident]

/-- `VCDWriter::_dump_off` (vcd_writer.cpp:379-398). -/
def dumpOffS (ts : Nat) (s : WriterState) : WriterState :=
  { s with output := s.output ++ [timeMarker ts, "$dumpoff"]
      ++ (s.varsPrevs.map dumpOffLine).flatten ++ ["$end"] }

/-- `VCDWriter::_finalize_registration` (vcd_writer.cpp:508-520): write the
header; if any value is tracked, a timestamp line, the `$dumpvars` replay
and — if dumping is off — a `$dumpoff` replay; finally clear `_registering`.
The `assert(_registering)` holds at both call sites; `finalizeCount` is the
ghost counter. -/
def finalizeRegistration (s : WriterState) : WriterState :=
  let s1 := writeHeaderS s
  let s2 :=
    if s1.varsPrevs.length ≠ 0 then
      let s2a := { s1 with output := s1.output ++ [timeMarker s1.timestamp] }
      let s2b := dumpValuesS "$dumpvars" s2a
      if !s2b.dumping then dumpOffS s2b.timestamp s2b else s2b
    else s1
  { s2 with registering := false, finalizeCount := s2.finalizeCount + 1 }

/-- The `timestamp > _timestamp` block of `VCDWriter::_change`
(vcd_writer.cpp:317-324): finalize if still registering, print the time
marker if dumping, advance the watermark. -/
def advanceTime (ts : Nat) (s : WriterState) : WriterState :=
  if s.timestamp < ts then
    let s1 := if s.registering then finalizeRegistration s else s
    let s2 := if s1.dumping then { s1 with output := s1.output ++ [timeMarker ts] } else s1
    { s2 with timestamp := ts }
  else s

/-- The emission step of `_change` (vcd_writer.cpp:343-344):
`if (_dumping && !_registering)` print `<encoding><id:hex>`. -/
def emitRecord (var : VCDVar) (enc : List Char) (s : WriterState) : WriterState :=
  if s.dumping && !s.registering then
    { s with output := s.output ++ [String.mk enc ++ hexStr var.ident] }
  else s

variable (realEnc : List Char → Except VCDErr (List Char))

/-- `VCDWriter::_change` (vcd_writer.cpp:307-346).  Out-of-order timestamps
and a closed writer fail first (in that order); then the time advance block
runs, the value is encoded (an encoding failure propagates with the advance
already performed), and the tracker decides: unchanged value — `false`
without emission; changed — update and emit; untracked — insert when
registering (`reg`), else the "do not registered" `VCDTypeException`.
The `!var` null check (vcd_writer.cpp:314) cannot fire here since `var` is
always a value. -/
def changeInner (var : VCDVar) (ts : Nat) (value : List Char) (reg : Bool)
    (s : WriterState) : Except VCDErr Bool × WriterState :=
  if ts < s.timestamp then
    (Except.error (VCDErr.phaseExc ("Out of order value change var '" ++ var.name ++ "'")), s)
  else if s.closed then
    (Except.error (VCDErr.phaseExc "Cannot change value after close()"), s)
  else
    let s1 := advanceTime ts s
    match changeRecord realEnc var value with
    | Except.error e => (Except.error e, s1)
    | Except.ok enc =>
      match lookupTracker s1.varsPrevs var.scopeName var.name with
      | some prev =>
        if prev = enc then (Except.ok false, s1)
        else
          (Except.ok true, emitRecord var enc
            { s1 with varsPrevs := setTracker s1.varsPrevs var.scopeName var.name enc })
      | none =>
        if !reg then
          (Except.error (VCDErr.typeExc ("VCDVariable '" ++ var.name
            ++ "' do not registered")), s1)
        else
          (Except.ok true, emitRecord var enc
            { s1 with varsPrevs := s1.varsPrevs ++ [(var, enc)] })

/-- `VCDWriter::change` (vcd_writer.cpp:349-352) together with the `var`
lookup (vcd_writer.cpp:355-364). -/
def changeVar (scope name : String) (ts : Nat) (value : List Char)
    (s : WriterState) : Except VCDErr Bool × WriterState :=
  match findVar s.vars scope name with
  | none => (Except.error (VCDErr.phaseExc ("The var '" ++ name ++ "' in scope '"
      ++ scope ++ "' does not exist")), s)
  | some v => changeInner realEnc v ts value false s

/-- The variable-construction `switch` of `register_var`
(vcd_writer.cpp:256-292): subclass and resolved size per type, plus the
per-type defaulting of the initial value (`init == "x"` becomes `"0.0"` for
reals and all-unknown in the generic vector branch; sizeless non-defaulted
types fail). -/
def mkVarInit (type : VariableType) (size : Nat) (init : List Char)
    (scopeName name : String) (nextId : Nat) : Except VCDErr (VCDVar × List Char) :=
  match type with
  | .integer | .realtime =>
    if (if size = 0 then 64 else size) = 1 then
      Except.ok (⟨nextId, type, name, 1, scopeName, .scalar⟩, init)
    else
      Except.ok (⟨nextId, type, name, if size = 0 then 64 else size, scopeName, .vector⟩, init)
  | .real =>
    Except.ok (⟨nextId, type, name, if size = 0 then 64 else size, scopeName, .real⟩,
      if init = [VCDValues.UNDEF] then ['0', '.', '0'] else init)
  | .string =>
    Except.ok (⟨nextId, type, name, if size = 0 then 1 else size, scopeName, .str⟩, init)
  | .event => Except.ok (⟨nextId, type, name, 1, scopeName, .scalar⟩, init)
  | _ =>
    if size = 0 then
      Except.error (VCDErr.typeExc ("Must supply size for type '" ++ varTypeName type
        ++ "' of var '" ++ name ++ "'"))
    else
      Except.ok (⟨nextId, type, name, size, scopeName, .vector⟩,
        if init = [VCDValues.UNDEF] then List.replicate size VCDValues.UNDEF else init)

/-- `VCDWriter::register_var` (vcd_writer.cpp:234-304).  Phase and emptiness
guards; find-or-insert the scope; build the variable; the implicit first
change for every type except `event`; then the duplicate check (running
after that change, as in the source), registry insert, scope append and id
increment. -/
def registerVar (scope name : String) (type : VariableType) (size : Nat)
    (init : List Char) (dupCheck : Bool) (s : WriterState) :
    Except VCDErr VCDVar × WriterState :=
  if s.closed then (Except.error (VCDErr.phaseExc "Cannot register after close()"), s)
  else if !s.registering then
    (Except.error (VCDErr.phaseExc ("Cannot register new var '" ++ name
      ++ "', registering finished")), s)
  else if scope.length = 0 ∨ name.length = 0 then
    (Except.error (VCDErr.typeExc ("Empty scope '" ++ scope ++ "' or name '"
      ++ name ++ "'")), s)
  else
    let s0 := { s with scopes := ensureScope s.scopes scope s.scopeDefType }
    match mkVarInit type size init scope name s0.nextVarId with
    | Except.error e => (Except.error e, s0)
    | Except.ok (pvar, initValue) =>
      match (if type ≠ VariableType.event
          then changeInner realEnc pvar s0.timestamp initValue true s0
          else (Except.ok true, s0)) with
      | (Except.error e, s1) => (Except.error e, s1)
      | (Except.ok _, s1) =>
        if dupCheck && (findVar s1.vars scope name).isSome then
          (Except.error (VCDErr.typeExc ("Duplicate var '" ++ name ++ "' in scope '"
            ++ scope ++ "'")), s1)
        else
          (Except.ok pvar,
            { s1 with vars := insertVarSet s1.vars pvar,
                      scopes := pushVarToScope s1.scopes scope pvar,
                      nextVarId := s1.nextVarId + 1 })

/-- One external call: either a `register_var` or a `change`. -/
inductive WriterOp where
  | reg (scope name : String) (type : VariableType) (size : Nat)
      (init : List Char) (dup : Bool)
  | chg (scope name : String) (ts : Nat) (value : List Char)

/-- Run one call, keeping the state it leaves behind (a thrown exception
surfaces to the caller; the effects already performed persist). -/
def runOp (s : WriterState) : WriterOp → WriterState
  | .reg scope name type size init dup => (registerVar realEnc scope name type size init dup s).2
  | .chg scope name ts value => (changeVar realEnc scope name ts value s).2

/-- Run a sequence of calls from a state. -/
def runOps (s : WriterState) (ops : List WriterOp) : WriterState :=
  ops.foldl (runOp realEnc) s

/-- A concrete stand-in for the real encoder, used to run the engine on
inputs that involve no real-typed variable (the stand-in is never invoked
there). -/
def noRealEnc : List Char → Except VCDErr (List Char) :=
  fun _ => Except.error (VCDErr.typeExc "real encoder not modelled")

/-- The registration-phase invariant: while `_registering` is set nothing has
been written and `_finalize_registration` has not run; once it is cleared,
finalization ran exactly once. -/
def RegInv (s : WriterState) : Prop :=
  (s.registering = true → s.output = [] ∧ s.finalizeCount = 0)
  ∧ (s.registering = false → s.finalizeCount = 1)

/-- Setting a position of a list to the value it already holds is a no-op. -/
theorem set_getD_self {l : List Char} {i : Nat} {d : Char} (h : i < l.length) :
    l.set i (l.getD i d) = l := by
  apply List.ext_getElem?
  intro j
  rw [List.getElem?_set]
  split
  · next hij =>
    subst hij
    simp [List.getD_eq_getElem?_getD, List.getElem?_eq_getElem h, h]
  · rfl

/-- The validation scan succeeds and leaves the buffer unchanged when every
position it visits already holds a lower-case state character. -/
theorem vecScanGo_ok (size : Nat) : ∀ (fuel : Nat) (val : List Char) (i bound : Nat),
    (∀ j, i ≤ j → j < bound → j < val.length →
      val.getD j ' ' = '0' ∨ val.getD j ' ' = '1' ∨ val.getD j ' ' = 'x' ∨ val.getD j ' ' = 'z') →
    vecScanGo size fuel val i bound = Except.ok val
  | 0, _, _, _, _ => rfl
  | fuel + 1, val, i, bound, h => by
    simp only [vecScanGo]
    split
    · next hib =>
      split
      · next hil =>
        have hv := h i le_rfl hib hil
        have hlow : asciiToLower (val.getD i ' ') = val.getD i ' ' := by
          rcases hv with h' | h' | h' | h' <;> rw [h'] <;> decide
        rw [hlow, set_getD_self hil]
        have hval : val.getD i ' ' = VCDValues.ONE ∨ val.getD i ' ' = VCDValues.ZERO
            ∨ val.getD i ' ' = VCDValues.UNDEF ∨ val.getD i ' ' = VCDValues.HIGHV := by
          rcases hv with h' | h' | h' | h' <;> rw [h'] <;> decide
        rw [if_pos hval]
        exact vecScanGo_ok size fuel val (i + 1) bound fun j hj hjb hjl => h j (by omega) hjb hjl
      · rfl
    · rfl

/-- The validation scan hits an error when some visited position holds a
character that is not a state character even after lower-casing. -/
theorem vecScanGo_error (size : Nat) : ∀ (fuel : Nat) (val : List Char) (i bound j : Nat),
    i ≤ j → j < bound → j < val.length →
    ¬(asciiToLower (val.getD j ' ') = VCDValues.ONE ∨ asciiToLower (val.getD j ' ') = VCDValues.ZERO
      ∨ asciiToLower (val.getD j ' ') = VCDValues.UNDEF
      ∨ asciiToLower (val.getD j ' ') = VCDValues.HIGHV) →
    j + 1 ≤ fuel + i →
    ∃ e, vecScanGo size fuel val i bound = Except.error e
  | 0, _, i, _, j, hij, _, _, _, hfuel => absurd hfuel (by omega)
  | fuel + 1, val, i, bound, j, hij, hjb, hjl, hbad, hfuel => by
    simp only [vecScanGo]
    rw [if_pos (show i < bound by omega), if_pos (show i < val.length by omega)]
    split
    · next hok =>
      have hne : i ≠ j := by
        rintro rfl
        exact hbad hok
      have hpre : (val.set i (asciiToLower (val.getD i ' '))).getD j ' ' = val.getD j ' ' := by
        rw [List.getD_eq_getElem?_getD, List.getElem?_set_ne hne, ← List.getD_eq_getElem?_getD]
      exact vecScanGo_error size fuel _ (i + 1) bound j (by omega) hjb
        (by simpa using hjl) (by rw [hpre]; exact hbad) (by omega)
    · exact ⟨_, rfl⟩

/-- The shift loop preserves the buffer length. -/
theorem shiftLoop_length (k : Nat) : ∀ (val : List Char) (i : Nat),
    (shiftLoop k val i).length = val.length
  | _, 0 => rfl
  | val, i + 1 => by rw [shiftLoop, shiftLoop_length k _ i, List.length_set]

/-- The zero-fill loop preserves the buffer length. -/
theorem zeroLoop_length : ∀ (c : Nat) (val : List Char) (i : Nat),
    (zeroLoop val i c).length = val.length
  | 0, _, _ => rfl
  | c + 1, val, i => by rw [zeroLoop, zeroLoop_length c _ (i + 1), List.length_set]

/-- Pointwise description of the shift loop: positions `k+1 .. k+i` receive
the characters at positions `1 .. i`, everything else is untouched. -/
theorem shiftLoop_getElem? {k : Nat} (hk : 1 ≤ k) : ∀ (i : Nat) (val : List Char),
    k + i < val.length → ∀ j,
    (shiftLoop k val i)[j]? = if k + 1 ≤ j ∧ j ≤ k + i then val[j - k]? else val[j]?
  | 0, val, _, j => by rw [shiftLoop, if_neg (by omega)]
  | i + 1, val, hlen, j => by
    rw [shiftLoop, shiftLoop_getElem? hk i _ (by simp; omega) j]
    by_cases hj1 : k + 1 ≤ j ∧ j ≤ k + i
    · rw [if_pos hj1, if_pos ⟨hj1.1, by omega⟩, List.getElem?_set_ne (by omega)]
    · rw [if_neg hj1]
      by_cases hj2 : j = k + i + 1
      · subst hj2
        rw [if_pos ⟨by omega, by omega⟩, List.getElem?_set_self (by omega),
          show k + i + 1 - k = i + 1 by omega, List.getD_eq_getElem?_getD,
          List.getElem?_eq_getElem (show i + 1 < val.length by omega)]
        rfl
      · rw [if_neg (by omega), List.getElem?_set_ne (by omega)]

/-- Pointwise description of the zero-fill loop: positions `i .. i+c-1`
become `'0'`, everything else is untouched. -/
theorem zeroLoop_getElem? : ∀ (c i : Nat) (val : List Char), i + c ≤ val.length → ∀ j,
    (zeroLoop val i c)[j]? = if i ≤ j ∧ j < i + c then some VCDValues.ZERO else val[j]?
  | 0, i, val, _, j => by rw [zeroLoop, if_neg (by omega)]
  | c + 1, i, val, hlen, j => by
    rw [zeroLoop, zeroLoop_getElem? c (i + 1) _ (by simp; omega) j]
    by_cases h1 : i + 1 ≤ j ∧ j < i + 1 + c
    · rw [if_pos h1, if_pos ⟨by omega, by omega⟩]
    · rw [if_neg h1]
      by_cases h2 : j = i
      · subst h2
        rw [if_pos ⟨le_rfl, by omega⟩, List.getElem?_set_self (by omega)]
      · rw [if_neg (by omega), List.getElem?_set_ne (by omega)]

/-- Position-wise description of the target shape `'b'` + zero padding +
input + `' '`. -/
theorem padded_getElem? (k : Nat) (value : List Char) (j : Nat) :
    ('b' :: List.replicate k VCDValues.ZERO ++ value ++ [' '])[j]? =
      if j = 0 then some 'b'
      else if j ≤ k then some VCDValues.ZERO
      else if j ≤ k + value.length then value[j - k - 1]?
      else if j = k + value.length + 1 then some ' '
      else none := by
  simp only [List.cons_append, List.append_assoc, List.getElem?_cons, List.getElem?_append,
    List.getElem?_replicate, List.length_replicate, List.length_append, List.length_cons,
    List.length_nil, List.getElem?_nil]
  split_ifs <;> first | rfl | omega | (congr 1; omega)

/-- Position-wise description of the resized scan buffer
`'b' + value + ' '` followed by the NULs appended by `resize`. -/
theorem bval_getElem? (value : List Char) (pad : Nat) (j : Nat) :
    (('b' :: value ++ [' ']) ++ List.replicate pad (Char.ofNat 0))[j]? =
      if j = 0 then some 'b'
      else if j ≤ value.length then value[j - 1]?
      else if j = value.length + 1 then some ' '
      else if j ≤ value.length + 1 + pad then some (Char.ofNat 0)
      else none := by
  simp only [List.cons_append, List.append_assoc, List.getElem?_cons, List.getElem?_append,
    List.getElem?_replicate, List.length_replicate, List.length_append, List.length_cons,
    List.length_nil, List.getElem?_nil]
  split_ifs <;> first | rfl | omega | (congr 1; omega)

/-- Closed form for the whole alignment step of the vector encoder: resize,
shift, zero-fill and final space produce the input right-aligned and
left-padded with `'0'`. -/
theorem vectorAlign (size : Nat) (value : List Char) (hn : 1 ≤ value.length)
    (hs : value.length < size) :
    ((zeroLoop (shiftLoop (size - value.length)
        (('b' :: value ++ [' ']) ++ List.replicate (size + 2 - (value.length + 2)) (Char.ofNat 0))
        value.length) 1 (size - value.length)).set (size + 1) ' ')
      = 'b' :: List.replicate (size - value.length) VCDValues.ZERO ++ value ++ [' '] := by
  have hres_len : (('b' :: value ++ [' '])
      ++ List.replicate (size + 2 - (value.length + 2)) (Char.ofNat 0)).length = size + 2 := by
    simp
    omega
  have hk : 1 ≤ size - value.length := by omega
  have hsh := shiftLoop_getElem? hk value.length
    (('b' :: value ++ [' ']) ++ List.replicate (size + 2 - (value.length + 2)) (Char.ofNat 0))
    (by rw [hres_len]; omega)
  have hz := zeroLoop_getElem? (size - value.length) 1
    (shiftLoop (size - value.length)
      (('b' :: value ++ [' ']) ++ List.replicate (size + 2 - (value.length + 2)) (Char.ofNat 0))
      value.length)
    (by rw [shiftLoop_length, hres_len]; omega)
  apply List.ext_getElem?
  intro j
  rw [List.getElem?_set, padded_getElem?, hz j, hsh j, bval_getElem?, bval_getElem?,
    zeroLoop_length, shiftLoop_length, hres_len]
  split_ifs <;> first | rfl | omega | (congr 1; omega)

/-- General success case of the vector encoder: a nonempty value made of
lower-case state characters and shorter than the width encodes to the value
right-aligned, left-padded with `'0'`, between `'b'` and `' '`. -/
theorem vectorChangeRecord_valid (size : Nat) (value : List Char)
    (hne : value ≠ []) (hlt : value.length < size) (hsz : size < 2 ^ 32)
    (hv : ∀ c ∈ value, c = '0' ∨ c = '1' ∨ c = 'x' ∨ c = 'z') :
    vectorChangeRecord size value
      = Except.ok ('b' :: List.replicate (size - value.length) '0' ++ value ++ [' ']) := by
  have hn : 1 ≤ value.length := List.length_pos.mpr hne
  have hbound : (value.length + sizeTMod - 1) % sizeTMod = value.length - 1 := by
    have h1 : value.length + sizeTMod - 1 = (value.length - 1) + sizeTMod := by
      have : (2:Nat) ^ 64 = sizeTMod := rfl
      omega
    rw [h1, Nat.add_mod_right, Nat.mod_eq_of_lt]
    have : sizeTMod = 2 ^ 64 := rfl
    omega
  have hscan : vecScanGo size ('b' :: value ++ [' ']).length ('b' :: value ++ [' ']) 1
      ((value.length + sizeTMod - 1) % sizeTMod) = Except.ok ('b' :: value ++ [' ']) := by
    rw [hbound]
    apply vecScanGo_ok
    intro j hj1 hjb hjl
    have hj : j - 1 < value.length := by omega
    have hcons : ('b' :: value ++ [' ']).getD j ' ' = value.getD (j - 1) ' ' := by
      rw [List.getD_eq_getElem?_getD, List.getD_eq_getElem?_getD, List.getElem?_append,
        if_pos (by simp; omega), List.getElem?_cons, if_neg (by omega)]
    rw [hcons, List.getD_eq_getElem?_getD, List.getElem?_eq_getElem hj]
    exact hv _ (List.getElem_mem hj)
  unfold vectorChangeRecord
  rw [if_neg (show ¬ value.length > size by omega), hscan]
  simp only [Except.bind]
  rw [if_neg (by omega), if_pos hlt,
    show ('b' :: value ++ [' ']).length = value.length + 2 by simp]
  exact congrArg Except.ok (vectorAlign size value hn hlt)

/-- Claim C3, counterexample: the encoding is not always the input
right-aligned and zero-filled.  The empty value (shorter than the width 4)
does not encode at all — the wrapped-around loop bound makes the scan read
the trailing space and throw — and a value with upper-case characters is
lower-cased at the checked positions only, so `"XXX"` encodes to `"b0xXX "`,
not to the input right-aligned. -/
theorem c3_counterexample :
    vectorChangeRecord 4 []
        = Except.error (VCDErr.typeExc "Invalid binary vector value 'b ' size '4'")
      ∧ vectorChangeRecord 4 ['X', 'X', 'X'] = Except.ok ['b', '0', 'x', 'X', 'X', ' '] :=
  ⟨rfl, rfl⟩

/-- Claim C3 (amended): a width-4 vector fed `"xx"` encodes to `"b00xx "`;
and for every nonempty vector value consisting of lower-case state
characters `{0,1,x,z}` and shorter than the declared width (with the width in
the range of the C++ `unsigned` field), the encoding is the input
right-aligned and left-padded with `'0'` up to the width, between the `'b'`
prefix and the trailing space. -/
theorem c3_vector_padding :
    vectorChangeRecord 4 ['x', 'x'] = Except.ok ['b', '0', '0', 'x', 'x', ' ']
    ∧ ∀ (size : Nat) (value : List Char), value ≠ [] → value.length < size → size < 2 ^ 32 →
      (∀ c ∈ value, c = '0' ∨ c = '1' ∨ c = 'x' ∨ c = 'z') →
      vectorChangeRecord size value
        = Except.ok ('b' :: List.replicate (size - value.length) '0' ++ value ++ [' ']) :=
  ⟨rfl, vectorChangeRecord_valid⟩

/-- Witness for the amended C3 at a concrete input: width 8, value `"1z0"`. -/
theorem c3_vector_padding_witness :
    vectorChangeRecord 8 ['1', 'z', '0']
      = Except.ok ('b' :: List.replicate 5 '0' ++ ['1', 'z', '0'] ++ [' ']) :=
  c3_vector_padding.2 8 ['1', 'z', '0'] (by decide) (by decide) (by decide)
    (by intro c hc; fin_cases hc <;> simp)

/-- Claim C4 (code bug): a scalar fed the empty value does NOT encode to
`"x"`; the guard `value.size() != 1` rejects it with a `VCDTypeException`,
although the ternary explicitly maps the empty value to `UNDEF` and the class
comment (vcd_writer.cpp:150-151) documents the empty value as `UNDEF`. -/
theorem c4_empty_scalar_rejected :
    scalarChangeRecord []
      = Except.error (VCDErr.typeExc "Invalid scalar value 'x'") := rfl

/-- Claim C6, counterexample: an invalid character in the last two positions
of a vector value is never validated.  The one-character value `"9"` on a
width-4 vector is accepted and encodes to `"b0009 "`, and the two-character
value `"99"` is accepted as well. -/
theorem c6_counterexample :
    vectorChangeRecord 4 ['9'] = Except.ok ['b', '0', '0', '0', '9', ' ']
    ∧ vectorChangeRecord 4 ['9', '9'] = Except.ok ['b', '0', '0', '9', '9', ' '] :=
  ⟨rfl, rfl⟩

/-- Claim C6 (amended): a vector value containing a character outside
`{0,1,x,z}` (case-insensitive) at any position other than the last two fails
with a `VCDTypeException`; offending characters in the last two positions are
not detected (see the counterexample). -/
theorem c6_invalid_char_rejected (size : Nat) (value : List Char) (p : Nat)
    (hlen : value.length < sizeTMod) (hp : p + 3 ≤ value.length)
    (hbad : ¬(asciiToLower (value.getD p ' ') = '1' ∨ asciiToLower (value.getD p ' ') = '0'
      ∨ asciiToLower (value.getD p ' ') = 'x' ∨ asciiToLower (value.getD p ' ') = 'z')) :
    ∃ e, vectorChangeRecord size value = Except.error e := by
  by_cases hgt : value.length > size
  · exact ⟨_, by unfold vectorChangeRecord; rw [if_pos hgt]⟩
  · have hbound : (value.length + sizeTMod - 1) % sizeTMod = value.length - 1 := by
      have h1 : value.length + sizeTMod - 1 = (value.length - 1) + sizeTMod := by
        have : (2:Nat) ^ 64 = sizeTMod := rfl
        omega
      rw [h1, Nat.add_mod_right, Nat.mod_eq_of_lt (by omega)]
    have hgetD : ('b' :: value ++ [' ']).getD (p + 1) ' ' = value.getD p ' ' := by
      rw [List.getD_eq_getElem?_getD, List.getD_eq_getElem?_getD, List.getElem?_append,
        if_pos (by simp; omega), List.getElem?_cons, if_neg (by omega)]
      simp
    obtain ⟨e, he⟩ := vecScanGo_error size ('b' :: value ++ [' ']).length ('b' :: value ++ [' '])
      1 (value.length - 1) (p + 1) (by omega) (by omega) (by simp; omega)
      (by rw [hgetD]; exact hbad) (by simp; omega)
    refine ⟨e, ?_⟩
    unfold vectorChangeRecord
    rw [if_neg (show ¬ value.length > size from hgt), hbound, he]
    rfl

/-- Witness for the amended C6 at a concrete input: width 4, value `"9ab"`
(the `'9'` at position 0 is checked and rejected). -/
theorem c6_invalid_char_rejected_witness :
    ∃ e, vectorChangeRecord 4 ['9', 'a', 'b'] = Except.error e :=
  c6_invalid_char_rejected 4 ['9', 'a', 'b'] 0 (by decide) (by decide) (by decide)

/-- Fields of the state untouched by `_finalize_registration`, plus the two
it sets (`_registering` cleared, ghost counter bumped). -/
theorem finalize_fields (s : WriterState) :
    (finalizeRegistration s).registering = false
    ∧ (finalizeRegistration s).finalizeCount = s.finalizeCount + 1
    ∧ (finalizeRegistration s).dumping = s.dumping
    ∧ (finalizeRegistration s).varsPrevs = s.varsPrevs
    ∧ (finalizeRegistration s).closed = s.closed
    ∧ (finalizeRegistration s).vars = s.vars
    ∧ (finalizeRegistration s).timestamp = s.timestamp := by
  simp only [finalizeRegistration, writeHeaderS, dumpValuesS, dumpOffS]
  split_ifs <;> simp

/-- Fields of the state untouched by the time-advance block. -/
theorem advanceTime_fields (ts : Nat) (s : WriterState) :
    (advanceTime ts s).varsPrevs = s.varsPrevs
    ∧ (advanceTime ts s).closed = s.closed
    ∧ (advanceTime ts s).vars = s.vars
    ∧ (advanceTime ts s).dumping = s.dumping := by
  simp only [advanceTime]
  split_ifs <;> simp [finalize_fields]

/-- The time-advance block preserves the registration invariant. -/
theorem regInv_advanceTime {s : WriterState} (ts : Nat) (h : RegInv s) :
    RegInv (advanceTime ts s) := by
  simp only [advanceTime]
  split_ifs with h1 h2 h3 h3
  · refine ⟨fun hr => ?_, fun _ => ?_⟩
    · rw [(finalize_fields s).1] at hr
      exact absurd hr (by simp)
    · simp [(finalize_fields s).2.1, (h.1 h2).2]
  · refine ⟨fun hr => ?_, fun _ => ?_⟩
    · rw [(finalize_fields s).1] at hr
      exact absurd hr (by simp)
    · simp [(finalize_fields s).2.1, (h.1 h2).2]
  · have hr : s.registering = false := by revert h2; cases s.registering <;> simp
    exact ⟨fun hc => by simp_all, fun _ => h.2 hr⟩
  · have hr : s.registering = false := by revert h2; cases s.registering <;> simp
    exact ⟨fun hc => by simp_all, fun _ => h.2 hr⟩
  · exact h

/-- The emission step preserves the registration invariant (it only prints
when registration is finished). -/
theorem regInv_emitRecord {s : WriterState} (var : VCDVar) (enc : List Char)
    (h : RegInv s) : RegInv (emitRecord var enc s) := by
  simp only [emitRecord]
  split_ifs with h1
  · have hr : s.registering = false := by
      revert h1
      cases s.registering <;> cases s.dumping <;> simp
    exact ⟨fun hc => by simp_all, fun _ => h.2 hr⟩
  · exact h

/-- `_change` preserves the registration invariant, including on the
exception paths. -/
theorem regInv_changeInner {s : WriterState} (var : VCDVar) (ts : Nat)
    (value : List Char) (reg : Bool) (h : RegInv s) :
    RegInv (changeInner realEnc var ts value reg s).2 := by
  by_cases h1 : ts < s.timestamp
  · simp only [changeInner, if_pos h1]
    exact h
  by_cases h2 : s.closed = true
  · simp only [changeInner, if_neg h1, if_pos h2]
    exact h
  simp only [changeInner, if_neg h1, if_neg h2]
  have hadv := regInv_advanceTime ts h
  rcases hrec : changeRecord realEnc var value with e | enc <;> simp only [hrec]
  · exact hadv
  · rcases hlk : lookupTracker (advanceTime ts s).varsPrevs var.scopeName var.name
        with _ | prev <;> simp only [hlk]
    · by_cases h3 : (!reg) = true
      · rw [if_pos h3]
        exact hadv
      · rw [if_neg h3]
        exact regInv_emitRecord _ _ hadv
    · by_cases h3 : prev = enc
      · rw [if_pos h3]
        exact hadv
      · rw [if_neg h3]
        exact regInv_emitRecord _ _ hadv

/-- `register_var` preserves the registration invariant. -/
theorem regInv_registerVar {s : WriterState} (scope name : String) (type : VariableType)
    (size : Nat) (init : List Char) (dup : Bool) (h : RegInv s) :
    RegInv (registerVar realEnc scope name type size init dup s).2 := by
  by_cases h1 : s.closed = true
  · simp only [registerVar, if_pos h1]
    exact h
  by_cases h2 : (!s.registering) = true
  · simp only [registerVar, if_neg h1, if_pos h2]
    exact h
  by_cases h3 : scope.length = 0 ∨ name.length = 0
  · simp only [registerVar, if_neg h1, if_neg h2, if_pos h3]
    exact h
  simp only [registerVar, if_neg h1, if_neg h2, if_neg h3]
  have h0 : RegInv { s with scopes := ensureScope s.scopes scope s.scopeDefType } := h
  rcases hmk : mkVarInit type size init scope name s.nextVarId with e | pv <;> simp only [hmk]
  · exact h0
  · rcases hch : (if type ≠ VariableType.event
        then changeInner realEnc pv.1 s.timestamp pv.2 true
          { s with scopes := ensureScope s.scopes scope s.scopeDefType }
        else (Except.ok true, { s with scopes := ensureScope s.scopes scope s.scopeDefType }))
      with ⟨r, s1⟩
    have hs1 : RegInv s1 := by
      rcases htype : decide (type ≠ VariableType.event) with _ | _
      · rw [if_neg (by simpa using htype)] at hch
        cases hch
        exact h0
      · rw [if_pos (by simpa using htype)] at hch
        have := regInv_changeInner realEnc pv.1 s.timestamp pv.2 true h0
        rw [hch] at this
        exact this
    rcases r with e | v <;> simp only [hch]
    · exact hs1
    · by_cases h4 : (dup && (findVar s1.vars scope name).isSome) = true
      · rw [if_pos h4]
        exact hs1
      · rw [if_neg h4]
        exact hs1

/-- `change` preserves the registration invariant. -/
theorem regInv_changeVar {s : WriterState} (scope name : String) (ts : Nat)
    (value : List Char) (h : RegInv s) :
    RegInv (changeVar realEnc scope name ts value s).2 := by
  rcases hf : findVar s.vars scope name with _ | v <;> simp only [changeVar, hf]
  · exact h
  · exact regInv_changeInner realEnc v ts value false h

/-- Any sequence of calls preserves the registration invariant. -/
theorem regInv_runOps (ops : List WriterOp) : ∀ (s : WriterState), RegInv s →
    RegInv (runOps realEnc s ops)
  | s, h => by
    induction ops generalizing s with
    | nil => exact h
    | cons op rest ih =>
      rcases op with ⟨scope, name, type, size, init, dup⟩ | ⟨scope, name, ts, value⟩
      · exact ih _ (regInv_registerVar realEnc scope name type size init dup h)
      · exact ih _ (regInv_changeVar realEnc scope name ts value h)

/-- Updating the tracked value at a present key makes lookup return it. -/
theorem lookupTracker_setTracker (scope nm : String) (enc : List Char) :
    ∀ (l : List (VCDVar × List Char)) (prev : List Char),
    lookupTracker l scope nm = some prev →
    lookupTracker (setTracker l scope nm enc) scope nm = some enc
  | [], prev, h => by cases h
  | (v, e) :: rest, prev, h => by
    by_cases hk : v.name = nm ∧ v.scopeName = scope
    · simp only [setTracker, if_pos hk, lookupTracker, if_pos hk]
    · simp only [lookupTracker, if_neg hk] at h
      simp only [setTracker, if_neg hk, lookupTracker, if_neg hk]
      exact lookupTracker_setTracker scope nm enc rest prev h

/-- Inserting an absent key (`emplace`) makes lookup return its value. -/
theorem lookupTracker_append (var : VCDVar) (enc : List Char) :
    ∀ (l : List (VCDVar × List Char)),
    lookupTracker l var.scopeName var.name = none →
    lookupTracker (l ++ [(var, enc)]) var.scopeName var.name = some enc
  | [], _ => by simp [lookupTracker]
  | (v, e) :: rest, h => by
    by_cases hk : v.name = var.name ∧ v.scopeName = var.scopeName
    · simp only [lookupTracker, if_pos hk] at h
      cases h
    · simp only [lookupTracker, if_neg hk] at h
      simp only [List.cons_append, lookupTracker, if_neg hk]
      exact lookupTracker_append var enc rest h

/-- The implicit first change performed during registration (`reg = true`,
timestamp equal to the watermark): it succeeds, seeds the tracker with the
encoding, and writes nothing — all other state fields are untouched. -/
theorem changeInner_seeds {s : WriterState} (var : VCDVar) (value enc : List Char)
    (hclosed : s.closed = false) (hreg : s.registering = true)
    (henc : changeRecord realEnc var value = Except.ok enc) :
    ∃ b s', changeInner realEnc var s.timestamp value true s = (Except.ok b, s')
      ∧ lookupTracker s'.varsPrevs var.scopeName var.name = some enc
      ∧ s'.output = s.output ∧ s'.vars = s.vars ∧ s'.scopes = s.scopes
      ∧ s'.nextVarId = s.nextVarId ∧ s'.timestamp = s.timestamp
      ∧ s'.registering = s.registering ∧ s'.closed = s.closed
      ∧ s'.dumping = s.dumping ∧ s'.finalizeCount = s.finalizeCount := by
  have hadv : advanceTime s.timestamp s = s := by
    unfold advanceTime
    rw [if_neg (by omega)]
  unfold changeInner
  rw [if_neg (show ¬ s.timestamp < s.timestamp by omega),
    if_neg (show ¬ s.closed = true by simp [hclosed]), hadv]
  simp only [henc]
  rcases hlk : lookupTracker s.varsPrevs var.scopeName var.name with _ | prev <;>
    simp only [hlk]
  · have hX : emitRecord var enc { s with varsPrevs := s.varsPrevs ++ [(var, enc)] }
        = { s with varsPrevs := s.varsPrevs ++ [(var, enc)] } := by
      simp [emitRecord, hreg]
    rw [if_neg (show ¬ (!true) = true by simp), hX]
    exact ⟨true, _, rfl, lookupTracker_append var enc _ hlk, rfl, rfl, rfl, rfl, rfl,
      rfl, rfl, rfl, rfl⟩
  · by_cases hpe : prev = enc
    · rw [if_pos hpe]
      subst hpe
      exact ⟨false, s, rfl, hlk, rfl, rfl, rfl, rfl, rfl, rfl, rfl, rfl, rfl⟩
    · have hX : emitRecord var enc
          { s with varsPrevs := setTracker s.varsPrevs var.scopeName var.name enc }
          = { s with varsPrevs := setTracker s.varsPrevs var.scopeName var.name enc } := by
        simp [emitRecord, hreg]
      rw [if_neg hpe, hX]
      exact ⟨true, _, rfl, lookupTracker_setTracker _ _ enc _ prev hlk, rfl, rfl, rfl, rfl,
        rfl, rfl, rfl, rfl, rfl⟩

/-- After registration is finalized, the time-advance block only appends the
timestamp marker (when dumping and actually advancing). -/
theorem advanceTime_output_finalized {s : WriterState} (ts : Nat)
    (hreg : s.registering = false) :
    (advanceTime ts s).output
        = s.output ++ (if s.dumping = true ∧ s.timestamp < ts then [timeMarker ts] else [])
      ∧ (advanceTime ts s).registering = false
      ∧ (advanceTime ts s).dumping = s.dumping
      ∧ (advanceTime ts s).varsPrevs = s.varsPrevs := by
  simp only [advanceTime]
  by_cases h1 : s.timestamp < ts
  · rw [if_pos h1, if_neg (show ¬ s.registering = true by simp [hreg])]
    by_cases h2 : s.dumping = true
    · rw [if_pos h2, if_pos ⟨h2, h1⟩]
      exact ⟨rfl, hreg, rfl, rfl⟩
    · rw [if_neg h2, if_neg (show ¬ (s.dumping = true ∧ s.timestamp < ts) by tauto)]
      exact ⟨by simp, hreg, rfl, rfl⟩
  · rw [if_neg h1, if_neg (show ¬ (s.dumping = true ∧ s.timestamp < ts) by tauto)]
    exact ⟨by simp, hreg, rfl, rfl⟩

/-- With dumping on and registration finalized, the emission step appends
exactly the change-record line. -/
theorem emitRecord_output_on {s : WriterState} (var : VCDVar) (enc : List Char)
    (hdump : s.dumping = true) (hreg : s.registering = false) :
    emitRecord var enc s = { s with output := s.output ++ [String.mk enc ++ hexStr var.ident] } := by
  simp [emitRecord, hdump, hreg]

/-- Claim C1 (confirmed): the three scopes `"a"`, `"a.b"`, `"a.c"` registered
in any order always give the sorted scope set `["a", "a.b", "a.c"]`, and the
declaration block emitted for them is exactly: open `a`, `a`'s variable
declarations, open `b`, `b`'s declarations, one close, open `c`, `c`'s
declarations, one close, then one final close for `a` — each scope's variable
declarations immediately after that scope's open marker. -/
theorem c1_scope_tree_emission :
    (∀ (l : List String), l.Perm ["a", "a.b", "a.c"] →
      (l.foldl (fun acc nm => ensureScope acc nm ScopeType.module) []).map ScopeE.name
        = ["a", "a.b", "a.c"])
    ∧ (∀ (va vb vc : List VCDVar),
      emitScopes "." [⟨"a", ScopeType.module, va⟩, ⟨"a.b", ScopeType.module, vb⟩,
          ⟨"a.c", ScopeType.module, vc⟩]
        = "$scope module a $end" :: (va.map declLine
          ++ "$scope module b $end" :: (vb.map declLine
          ++ "$upscope $end" :: "$scope module c $end" :: (vc.map declLine
          ++ ["$upscope $end", "$upscope $end"])))) := by
  constructor
  · intro l hl
    obtain ⟨x, y, z, rfl⟩ : ∃ x y z, l = [x, y, z] := by
      have hlen := hl.length_eq
      rcases l with _ | ⟨x, _ | ⟨y, _ | ⟨z, _ | ⟨w, t⟩⟩⟩⟩ <;>
        first | exact ⟨x, y, z, rfl⟩ | (exfalso; simp_all)
    have hnd : ([x, y, z] : List String).Nodup := hl.nodup_iff.mpr (by decide)
    have hx : x = "a" ∨ x = "a.b" ∨ x = "a.c" := by
      have := hl.subset (show x ∈ [x, y, z] by simp)
      simpa using this
    have hy : y = "a" ∨ y = "a.b" ∨ y = "a.c" := by
      have := hl.subset (show y ∈ [x, y, z] by simp)
      simpa using this
    have hz : z = "a" ∨ z = "a.b" ∨ z = "a.c" := by
      have := hl.subset (show z ∈ [x, y, z] by simp)
      simpa using this
    rcases hx with rfl | rfl | rfl <;> rcases hy with rfl | rfl | rfl <;>
      rcases hz with rfl | rfl | rfl <;> simp_all <;> decide
  · intro va vb vc
    rfl

/-- Witness for C1 at concrete inputs: one non-sorted registration order and
the emission with empty variable lists. -/
theorem c1_scope_tree_emission_witness :
    ((["a.c", "a", "a.b"] : List String).foldl
        (fun acc nm => ensureScope acc nm ScopeType.module) []).map ScopeE.name
      = ["a", "a.b", "a.c"]
    ∧ emitScopes "." [⟨"a", ScopeType.module, []⟩, ⟨"a.b", ScopeType.module, []⟩,
        ⟨"a.c", ScopeType.module, []⟩]
      = ["$scope module a $end", "$scope module b $end", "$upscope $end",
         "$scope module c $end", "$upscope $end", "$upscope $end"] :=
  ⟨c1_scope_tree_emission.1 ["a.c", "a", "a.b"] (by decide),
   c1_scope_tree_emission.2 [] [] []⟩

/-- Claim C2 (confirmed): over every sequence of register and change calls
from a fresh writer, finalize-registration runs at most once (ghost
counter), and as long as registration is not finalized nothing at all — in
particular no value-change record line — has been written to the sink. -/
theorem c2_finalize_once (initTs : Nat) (kw : List String) (ops : List WriterOp) :
    (runOps realEnc (initState initTs kw) ops).finalizeCount ≤ 1
    ∧ ((runOps realEnc (initState initTs kw) ops).registering = true →
        (runOps realEnc (initState initTs kw) ops).output = []) := by
  have h := regInv_runOps realEnc ops (initState initTs kw)
    ⟨fun _ => ⟨rfl, rfl⟩, fun hc => by simp [initState] at hc⟩
  refine ⟨?_, fun hr => (h.1 hr).1⟩
  by_cases hb : (runOps realEnc (initState initTs kw) ops).registering = true
  · rw [(h.1 hb).2]
    omega
  · have h1 := h.2 (by revert hb; cases (runOps realEnc (initState initTs kw) ops).registering <;> simp)
    omega

/-- Witness for C2 at concrete call sequences: a run that finalizes (count
stays at one) and a run that never leaves registration (empty output). -/
theorem c2_finalize_once_witness :
    (runOps noRealEnc (initState 0 [])
        [WriterOp.reg "s" "v" VariableType.integer 1 ['x'] true,
         WriterOp.chg "s" "v" 1 ['1'],
         WriterOp.chg "s" "v" 2 ['0']]).finalizeCount ≤ 1
    ∧ (runOps noRealEnc (initState 0 [])
        [WriterOp.reg "s" "v" VariableType.integer 1 ['x'] true]).output = [] :=
  ⟨(c2_finalize_once noRealEnc 0 [] _).1,
   (c2_finalize_once noRealEnc 0 [] _).2 rfl⟩

/-- Claim C5, counterexample: a change call at a timestamp strictly above the
watermark whose value fails to encode does write to the sink and does move
the watermark.  After registering an integer scalar at timestamp 0, the call
`change("s", "v", 1, "q")` raises the scalar TypeError, yet the watermark is
1 and the header block, `$dumpvars` replay and `#1` marker were all written
by that call. -/
theorem c5_counterexample :
    (changeVar noRealEnc "s" "v" 1 ['q']
        (registerVar noRealEnc "s" "v" VariableType.integer 1 ['x'] true (initState 0 [])).2).1
      = Except.error (VCDErr.typeExc "Invalid scalar value 'q'")
    ∧ (changeVar noRealEnc "s" "v" 1 ['q']
        (registerVar noRealEnc "s" "v" VariableType.integer 1 ['x'] true (initState 0 [])).2).2.timestamp
      = 1
    ∧ (changeVar noRealEnc "s" "v" 1 ['q']
        (registerVar noRealEnc "s" "v" VariableType.integer 1 ['x'] true (initState 0 [])).2).2.output
      = ["$scope module s $end", "$var integer 1 0 v $end", "$upscope $end",
         "$enddefinitions $end", "#0", "$dumpvars", "x0", "$end", "#1"] :=
  ⟨rfl, rfl, rfl⟩

/-- Claim C5 (amended): a change call that fails with a TypeError from value
encoding leaves the sink and the watermark untouched when its timestamp
equals the watermark; when the timestamp is strictly greater, the
time-advance block has already run when the failure surfaces — the watermark
has advanced to the new timestamp (and the finalization and/or timestamp
marker lines were written, see the counterexample). -/
theorem c5_failed_change_effects (var : VCDVar) (ts : Nat) (value : List Char) (reg : Bool)
    (s : WriterState) (e : VCDErr)
    (hclosed : s.closed = false)
    (henc : changeRecord realEnc var value = Except.error e) :
    (ts = s.timestamp → changeInner realEnc var ts value reg s = (Except.error e, s))
    ∧ (s.timestamp < ts →
        changeInner realEnc var ts value reg s = (Except.error e, advanceTime ts s)
        ∧ (advanceTime ts s).timestamp = ts) := by
  constructor
  · intro hts
    have hadv : advanceTime ts s = s := by
      unfold advanceTime
      rw [if_neg (by omega)]
    unfold changeInner
    rw [if_neg (by omega), if_neg (by simp [hclosed]), hadv]
    simp only [henc]
  · intro hts
    refine ⟨?_, ?_⟩
    · unfold changeInner
      rw [if_neg (by omega), if_neg (by simp [hclosed])]
      simp only [henc]
    · unfold advanceTime
      rw [if_pos hts]

/-- Witness for the amended C5 at concrete inputs: the same registered writer,
at the watermark (state unchanged) and above it (watermark advanced). -/
theorem c5_failed_change_effects_witness :
    changeInner noRealEnc ⟨0, VariableType.integer, "v", 1, "s", VarKind.scalar⟩ 0 ['q'] false
        (registerVar noRealEnc "s" "v" VariableType.integer 1 ['x'] true (initState 0 [])).2
      = (Except.error (VCDErr.typeExc "Invalid scalar value 'q'"),
         (registerVar noRealEnc "s" "v" VariableType.integer 1 ['x'] true (initState 0 [])).2)
    ∧ (advanceTime 1
        (registerVar noRealEnc "s" "v" VariableType.integer 1 ['x'] true (initState 0 [])).2).timestamp
      = 1 :=
  ⟨(c5_failed_change_effects noRealEnc
      ⟨0, VariableType.integer, "v", 1, "s", VarKind.scalar⟩ 0 ['q'] false
      (registerVar noRealEnc "s" "v" VariableType.integer 1 ['x'] true (initState 0 [])).2
      (VCDErr.typeExc "Invalid scalar value 'q'") rfl rfl).1 rfl,
   ((c5_failed_change_effects noRealEnc
      ⟨0, VariableType.integer, "v", 1, "s", VarKind.scalar⟩ 1 ['q'] false
      (registerVar noRealEnc "s" "v" VariableType.integer 1 ['x'] true (initState 0 [])).2
      (VCDErr.typeExc "Invalid scalar value 'q'") rfl rfl).2 (by decide)).2⟩

/-- Claim C7 (confirmed): submitting a value whose encoding equals the
tracked encoding, at a timestamp at or after the watermark, succeeds,
returns `false`, and performs no change-record emission — the resulting
state is exactly the one produced by the time-advance block, and once
registration is finalized the only possible new line is the timestamp
marker. -/
theorem c7_unchanged_value_noop (scope name : String) (ts : Nat) (value : List Char)
    (s : WriterState) (var : VCDVar) (prev : List Char)
    (hclosed : s.closed = false) (hts : s.timestamp ≤ ts)
    (hfind : findVar s.vars scope name = some var)
    (htrack : lookupTracker s.varsPrevs var.scopeName var.name = some prev)
    (henc : changeRecord realEnc var value = Except.ok prev) :
    changeVar realEnc scope name ts value s = (Except.ok false, advanceTime ts s)
    ∧ (s.registering = false →
        (advanceTime ts s).output
          = s.output ++ (if s.dumping = true ∧ s.timestamp < ts then [timeMarker ts] else [])) := by
  constructor
  · simp only [changeVar, hfind]
    unfold changeInner
    rw [if_neg (by omega), if_neg (by simp [hclosed])]
    simp only [henc]
    rw [show lookupTracker (advanceTime ts s).varsPrevs var.scopeName var.name = some prev
      from by rw [(advanceTime_fields ts s).1]; exact htrack]
    simp
  · intro hreg
    exact (advanceTime_output_finalized ts hreg).1

/-- Witness for C7 at a concrete input: resubmitting the seeded value `x`
at timestamp 2 is a no-op returning `false`. -/
theorem c7_unchanged_value_noop_witness :
    changeVar noRealEnc "s" "v" 2 ['x']
        (registerVar noRealEnc "s" "v" VariableType.integer 1 ['x'] true (initState 0 [])).2
      = (Except.ok false, advanceTime 2
          (registerVar noRealEnc "s" "v" VariableType.integer 1 ['x'] true (initState 0 [])).2) :=
  (c7_unchanged_value_noop noRealEnc "s" "v" 2 ['x']
    (registerVar noRealEnc "s" "v" VariableType.integer 1 ['x'] true (initState 0 [])).2
    ⟨0, VariableType.integer, "v", 1, "s", VarKind.scalar⟩ ['x']
    rfl (by decide) rfl rfl rfl).1

/-- Claim C8, counterexample: registering an `event` variable performs no
implicit first change — the tracker stays empty, so the claim's "for every
variable type" fails. -/
theorem c8_counterexample :
    (registerVar noRealEnc "top" "e" VariableType.event 0 ['x'] true (initState 0 [])).1
      = Except.ok ⟨0, VariableType.event, "e", 1, "top", VarKind.scalar⟩
    ∧ (registerVar noRealEnc "top" "e" VariableType.event 0 ['x'] true (initState 0 [])).2.varsPrevs
      = [] :=
  ⟨rfl, rfl⟩

/-- Claim C8 (amended): every successful register call for every variable
type except `event` performs an implicit first change that seeds the change
tracker with the encoding of the per-type defaulted initial value (the
defaulting of `mkVarInit`: `"x"` becomes `"0.0"` for reals and all-unknown in
the generic vector branch), writing nothing to the sink; `event` registration
skips the implicit change (see the counterexample). -/
theorem c8_register_seeds_nonevent (scope name : String) (type : VariableType) (size : Nat)
    (init : List Char) (dup : Bool) (s : WriterState) (pvar : VCDVar) (s' : WriterState)
    (hev : type ≠ VariableType.event)
    (heq : registerVar realEnc scope name type size init dup s = (Except.ok pvar, s')) :
    ∃ iv enc, mkVarInit type size init scope name s.nextVarId = Except.ok (pvar, iv)
      ∧ changeRecord realEnc pvar iv = Except.ok enc
      ∧ lookupTracker s'.varsPrevs pvar.scopeName pvar.name = some enc
      ∧ s'.output = s.output := by
  by_cases h1 : s.closed = true
  · simp only [registerVar, if_pos h1] at heq
    injection heq with h5 h6
    cases h5
  by_cases h2 : (!s.registering) = true
  · simp only [registerVar, if_neg h1, if_pos h2] at heq
    injection heq with h5 h6
    cases h5
  by_cases h3 : scope.length = 0 ∨ name.length = 0
  · simp only [registerVar, if_neg h1, if_neg h2, if_pos h3] at heq
    injection heq with h5 h6
    cases h5
  simp only [registerVar, if_neg h1, if_neg h2, if_neg h3] at heq
  rcases hmk : mkVarInit type size init scope name s.nextVarId with e | pv
  · rw [show mkVarInit type size init scope name
        ({ s with scopes := ensureScope s.scopes scope s.scopeDefType } : WriterState).nextVarId
      = Except.error e from hmk] at heq
    dsimp only at heq
    injection heq with h5 h6
    cases h5
  · rw [show mkVarInit type size init scope name
        ({ s with scopes := ensureScope s.scopes scope s.scopeDefType } : WriterState).nextVarId
      = Except.ok pv from hmk] at heq
    dsimp only at heq
    rw [if_pos hev] at heq
    rcases hrec : changeRecord realEnc pv.1 pv.2 with e | enc
    · have : (changeInner realEnc pv.1
          ({ s with scopes := ensureScope s.scopes scope s.scopeDefType } : WriterState).timestamp
          pv.2 true { s with scopes := ensureScope s.scopes scope s.scopeDefType }).1
          = Except.error e := by
        have hadv : advanceTime
            ({ s with scopes := ensureScope s.scopes scope s.scopeDefType } : WriterState).timestamp
            { s with scopes := ensureScope s.scopes scope s.scopeDefType }
            = { s with scopes := ensureScope s.scopes scope s.scopeDefType } := by
          unfold advanceTime
          rw [if_neg (by omega)]
        unfold changeInner
        rw [if_neg (by omega), if_neg (by simpa using h1), hadv]
        simp only [hrec]
      rcases hch : changeInner realEnc pv.1
          ({ s with scopes := ensureScope s.scopes scope s.scopeDefType } : WriterState).timestamp
          pv.2 true { s with scopes := ensureScope s.scopes scope s.scopeDefType } with ⟨r, s1⟩
      rw [hch] at heq this
      simp only at this
      rw [this] at heq
      dsimp only at heq
      injection heq with h5 h6
      cases h5
    · have hcl : ({ s with scopes := ensureScope s.scopes scope s.scopeDefType } :
          WriterState).closed = false := by simpa using h1
      have hrg : ({ s with scopes := ensureScope s.scopes scope s.scopeDefType } :
          WriterState).registering = true := by simpa using h2
      obtain ⟨b, s1, hch, hlk, hout, hvars, hscopes, hnext, htime, hreg1, hcl1, hdmp1, hfc1⟩ :=
        changeInner_seeds realEnc
          (s := { s with scopes := ensureScope s.scopes scope s.scopeDefType })
          pv.1 pv.2 enc hcl hrg hrec
      rw [hch] at heq
      dsimp only at heq
      by_cases h4 : (dup && (findVar s1.vars scope name).isSome) = true
      · rw [if_pos h4] at heq
        injection heq with h5 h6
        cases h5
      · rw [if_neg h4] at heq
        injection heq with h5 h6
        injection h5 with h5
        subst h5
        refine ⟨pv.2, enc, by simpa using hmk, hrec, ?_, ?_⟩
        · rw [← h6]
          exact hlk
        · rw [← h6]
          exact hout

/-- Witness for the amended C8 at a concrete input: a width-4 `wire` with the
default initial value. -/
theorem c8_register_seeds_nonevent_witness :
    ∃ iv enc, mkVarInit VariableType.wire 4 ['x'] "s" "v" (initState 0 []).nextVarId
        = Except.ok (⟨0, VariableType.wire, "v", 4, "s", VarKind.vector⟩, iv)
      ∧ changeRecord noRealEnc ⟨0, VariableType.wire, "v", 4, "s", VarKind.vector⟩ iv = Except.ok enc
      ∧ lookupTracker
          (registerVar noRealEnc "s" "v" VariableType.wire 4 ['x'] true (initState 0 [])).2.varsPrevs
          "s" "v" = some enc
      ∧ (registerVar noRealEnc "s" "v" VariableType.wire 4 ['x'] true (initState 0 [])).2.output
        = (initState 0 []).output :=
  c8_register_seeds_nonevent noRealEnc "s" "v" VariableType.wire 4 ['x'] true
    (initState 0 [])
    ⟨0, VariableType.wire, "v", 4, "s", VarKind.vector⟩
    (registerVar noRealEnc "s" "v" VariableType.wire 4 ['x'] true (initState 0 [])).2
    (by decide) rfl

/-- Claim C9, counterexample: while registration is still open, a change with
a new value at the initial timestamp returns `true` although no line at all
was written to the sink. -/
theorem c9_counterexample :
    (changeVar noRealEnc "s" "v" 0 ['1']
        (registerVar noRealEnc "s" "v" VariableType.integer 1 ['x'] true (initState 0 [])).2).1
      = Except.ok true
    ∧ (changeVar noRealEnc "s" "v" 0 ['1']
        (registerVar noRealEnc "s" "v" VariableType.integer 1 ['x'] true (initState 0 [])).2).2.output
      = [] :=
  ⟨rfl, rfl⟩

/-- Claim C9 (amended): `change` returns whether the tracked value was
updated; this coincides with "a change-record line was written by that call"
when dumping is enabled and registration is already finalized: then an
unchanged value returns `false` with no new line (beyond the timestamp
marker) and a changed value returns `true` with exactly the change-record
line appended.  During registration (or with dumping off) `change` can
return `true` with no line written (see the counterexample). -/
theorem c9_return_vs_emission (scope name : String) (ts : Nat) (value : List Char)
    (s : WriterState) (var : VCDVar) (prev enc : List Char)
    (hclosed : s.closed = false) (hts : s.timestamp ≤ ts)
    (hreg : s.registering = false) (hdump : s.dumping = true)
    (hfind : findVar s.vars scope name = some var)
    (htrack : lookupTracker s.varsPrevs var.scopeName var.name = some prev)
    (henc : changeRecord realEnc var value = Except.ok enc) :
    (prev = enc →
      (changeVar realEnc scope name ts value s).1 = Except.ok false
      ∧ (changeVar realEnc scope name ts value s).2.output
          = s.output ++ (if s.timestamp < ts then [timeMarker ts] else []))
    ∧ (prev ≠ enc →
      (changeVar realEnc scope name ts value s).1 = Except.ok true
      ∧ (changeVar realEnc scope name ts value s).2.output
          = s.output ++ (if s.timestamp < ts then [timeMarker ts] else [])
            ++ [String.mk enc ++ hexStr var.ident]) := by
  have hadv := advanceTime_output_finalized (s := s) ts hreg
  have heq : changeVar realEnc scope name ts value s
      = (if prev = enc then (Except.ok false, advanceTime ts s)
         else (Except.ok true, emitRecord var enc
           { advanceTime ts s with
              varsPrevs := setTracker (advanceTime ts s).varsPrevs var.scopeName var.name enc })) := by
    simp only [changeVar, hfind]
    unfold changeInner
    rw [if_neg (by omega), if_neg (by simp [hclosed])]
    simp only [henc]
    rw [show lookupTracker (advanceTime ts s).varsPrevs var.scopeName var.name = some prev
      from by rw [(advanceTime_fields ts s).1]; exact htrack]
  constructor
  · intro hpe
    rw [heq, if_pos hpe]
    refine ⟨rfl, ?_⟩
    rw [hadv.1, hdump]
    simp
  · intro hpe
    rw [heq, if_neg hpe]
    have hemit := emitRecord_output_on (s := { advanceTime ts s with
        varsPrevs := setTracker (advanceTime ts s).varsPrevs var.scopeName var.name enc }) var enc
      (show (advanceTime ts s).dumping = true by rw [hadv.2.2.1]; exact hdump)
      (show (advanceTime ts s).registering = false from hadv.2.1)
    refine ⟨rfl, ?_⟩
    rw [hemit]
    show (advanceTime ts s).output ++ [String.mk enc ++ hexStr var.ident] = _
    rw [hadv.1, hdump]
    simp

/-- Witness for the amended C9 at a concrete input: after finalization, a
changed value returns `true` (and writes, per the theorem). -/
theorem c9_return_vs_emission_witness :
    (changeVar noRealEnc "s" "v" 2 ['0']
        (changeVar noRealEnc "s" "v" 1 ['1']
          (registerVar noRealEnc "s" "v" VariableType.integer 1 ['x'] true (initState 0 [])).2).2).1
      = Except.ok true :=
  ((c9_return_vs_emission noRealEnc "s" "v" 2 ['0']
      (changeVar noRealEnc "s" "v" 1 ['1']
        (registerVar noRealEnc "s" "v" VariableType.integer 1 ['x'] true (initState 0 [])).2).2
      ⟨0, VariableType.integer, "v", 1, "s", VarKind.scalar⟩ ['1'] ['0']
      rfl (by decide) rfl rfl rfl rfl rfl).2 (by decide)).1

/-- Claim C10, counterexample: not every change on a registered `event`
variable fails with the "do not registered" TypeError — a change below the
watermark fails with the out-of-order PhaseError first. -/
theorem c10_counterexample :
    (changeVar noRealEnc "top" "e" 3 ['1']
        (registerVar noRealEnc "top" "e" VariableType.event 0 ['x'] true (initState 5 [])).2).1
      = Except.error (VCDErr.phaseExc "Out of order value change var 'e'") := rfl

/-- Claim C10 (amended): registering an `event` variable skips the implicit
first change (the tracker is untouched), and every subsequent change on it
that passes the timestamp/phase checks and whose value the scalar encoder
accepts fails with a TypeError reporting the variable as unregistered — with
the time-advance side effects already performed.  Calls failing the
timestamp check or value validation fail with their own errors instead (see
the counterexample). -/
theorem c10_event_change_unregistered :
    (∀ (scope name : String) (size : Nat) (init : List Char) (dup : Bool)
        (s : WriterState) (pvar : VCDVar) (s' : WriterState),
      registerVar realEnc scope name VariableType.event size init dup s = (Except.ok pvar, s') →
      s'.varsPrevs = s.varsPrevs)
    ∧ (∀ (scope name : String) (ts : Nat) (value : List Char) (s : WriterState)
        (var : VCDVar) (enc : List Char),
      s.closed = false → s.timestamp ≤ ts →
      findVar s.vars scope name = some var → var.type = VariableType.event →
      lookupTracker s.varsPrevs var.scopeName var.name = none →
      changeRecord realEnc var value = Except.ok enc →
      changeVar realEnc scope name ts value s
        = (Except.error (VCDErr.typeExc ("VCDVariable '" ++ var.name
            ++ "' do not registered")), advanceTime ts s)) := by
  constructor
  · intro scope name size init dup s pvar s' heq
    by_cases h1 : s.closed = true
    · simp only [registerVar, if_pos h1] at heq
      injection heq with h5 h6
      cases h5
    by_cases h2 : (!s.registering) = true
    · simp only [registerVar, if_neg h1, if_pos h2] at heq
      injection heq with h5 h6
      cases h5
    by_cases h3 : scope.length = 0 ∨ name.length = 0
    · simp only [registerVar, if_neg h1, if_neg h2, if_pos h3] at heq
      injection heq with h5 h6
      cases h5
    simp only [registerVar, if_neg h1, if_neg h2, if_neg h3, mkVarInit] at heq
    rw [if_neg (show ¬ VariableType.event ≠ VariableType.event by simp)] at heq
    dsimp only at heq
    by_cases h4 : (dup && (findVar { s with
        scopes := ensureScope s.scopes scope s.scopeDefType }.vars scope name).isSome) = true
    · rw [if_pos h4] at heq
      injection heq with h5 h6
      cases h5
    · rw [if_neg h4] at heq
      injection heq with h5 h6
      rw [← h6]
  · intro scope name ts value s var enc hclosed hts hfind _ htrack henc
    simp only [changeVar, hfind]
    unfold changeInner
    rw [if_neg (by omega), if_neg (by simp [hclosed])]
    simp only [henc]
    rw [show lookupTracker (advanceTime ts s).varsPrevs var.scopeName var.name = none
      from by rw [(advanceTime_fields ts s).1]; exact htrack]
    simp

/-- Witness for the amended C10 at a concrete input: after registering an
`event` variable, a phase-valid change with a valid scalar value fails with
the "do not registered" TypeError. -/
theorem c10_event_change_unregistered_witness :
    (registerVar noRealEnc "top" "e" VariableType.event 0 ['x'] true (initState 5 [])).2.varsPrevs
        = (initState 5 []).varsPrevs
    ∧ changeVar noRealEnc "top" "e" 5 ['1']
        (registerVar noRealEnc "top" "e" VariableType.event 0 ['x'] true (initState 5 [])).2
      = (Except.error (VCDErr.typeExc "VCDVariable 'e' do not registered"),
         advanceTime 5
          (registerVar noRealEnc "top" "e" VariableType.event 0 ['x'] true (initState 5 [])).2) :=
  ⟨(c10_event_change_unregistered noRealEnc).1 "top" "e" 0 ['x'] true (initState 5 [])
      ⟨0, VariableType.event, "e", 1, "top", VarKind.scalar⟩
      (registerVar noRealEnc "top" "e" VariableType.event 0 ['x'] true (initState 5 [])).2 rfl,
   (c10_event_change_unregistered noRealEnc).2 "top" "e" 5 ['1']
      (registerVar noRealEnc "top" "e" VariableType.event 0 ['x'] true (initState 5 [])).2
      ⟨0, VariableType.event, "e", 1, "top", VarKind.scalar⟩ ['1']
      rfl (by decide) rfl rfl rfl rfl⟩

end Vcd
